import Mathlib

/-!
Verification of the token-bucket rate limiter in `main.go`
(`TokenBucket`, `NewTokenBucket`, `Allow`, `refill`, `Stop`).

The Go struct fields `capacity`, `tokens`, `rate` are `int64`; `interval`
is a `time.Duration` (an `int64` nanosecond count).  We embed them as
`Int` together with an explicit two's-complement wrap `wrap64` applied
exactly where the Go code performs arithmetic that may overflow
(`tb.tokens += tb.rate` in `refill`).  The decrement `tb.tokens--` in
`Allow` is guarded by `tb.tokens > 0`, so it can never wrap for any
`int64`-representable state and is embedded as plain subtraction.

The mutex serializes `Allow`, the tick branch of `refill`, and the stop
branch of `refill`, so the observable quiescent states of the system are
exactly the states reached by applying these three atomic operations in
some order.  `SysState` pairs the bucket with the liveness of the refill
goroutine (`refillRunning`); a tick event is a no-op once the goroutine
has exited, and the goroutine exits exactly when it services the stop
signal.
-/

/-- Smallest value of a Go `int64`. -/
def int64Min : Int := -(2 ^ 63)

/-- Largest value of a Go `int64`. -/
def int64Max : Int := 2 ^ 63 - 1

/-- Two's-complement wrap-around of an integer into the `int64` range,
the result Go's well-defined signed overflow produces. -/
def wrap64 (x : Int) : Int := (x + 2 ^ 63) % 2 ^ 64 - 2 ^ 63

/-- The `TokenBucket` struct of `main.go` (its integer fields; the mutex
is modelled by atomicity of the operations, the ticker and the stop
channel by the event machinery below). -/
structure TokenBucket where
  capacity : Int
  tokens : Int
  rate : Int
  interval : Int
  deriving Repr, DecidableEq

/-- `NewTokenBucket` of `main.go`: the bucket starts full
(`tokens: capacity`).  No validation of the inputs is performed. -/
def NewTokenBucket (rate : Int) (capacity : Int) (interval : Int) : TokenBucket :=
  { capacity := capacity
    tokens := capacity
    rate := rate
    interval := interval }

/-- The `Allow` method of `main.go`: under the mutex, if `tokens > 0`
decrement and return `true`, else return `false`.  Returns the updated
bucket together with the boolean decision. -/
def Allow (tb : TokenBucket) : TokenBucket × Bool :=
  if tb.tokens > 0 then
    ({ tb with tokens := tb.tokens - 1 }, true)
  else
    (tb, false)

/-- One pass of the tick branch of the `refill` goroutine of `main.go`:
`tb.tokens += tb.rate` (Go `int64` addition, hence `wrap64`) followed by
the clamp `if tb.tokens > tb.capacity { tb.tokens = tb.capacity }`. -/
def refillTick (tb : TokenBucket) : TokenBucket :=
  if wrap64 (tb.tokens + tb.rate) > tb.capacity then { tb with tokens := tb.capacity }
  else { tb with tokens := wrap64 (tb.tokens + tb.rate) }

/-- State of the whole system: the bucket plus whether the `refill`
goroutine is still running (it exits exactly when it services the stop
signal, after which it never receives a tick again). -/
structure SysState where
  bucket : TokenBucket
  refillRunning : Bool
  deriving Repr, DecidableEq

/-- The three atomic operations serialized by the mutex / select loop:
an `Allow` call, a ticker tick serviced by `refill`, and the stop signal
serviced by `refill`. -/
inductive Event where
  | allow : Event
  | tick : Event
  | stopSignal : Event
  deriving Repr, DecidableEq

/-- Effect of one atomic event on the system state.  A tick has an
effect only while the refill goroutine is running (after it has exited,
nothing receives from the ticker channel).  Servicing the stop signal
stops the ticker and ends the goroutine; it never modifies the bucket's
fields. -/
def step (s : SysState) : Event → SysState
  | Event.allow => { s with bucket := (Allow s.bucket).1 }
  | Event.tick => if s.refillRunning then { s with bucket := refillTick s.bucket } else s
  | Event.stopSignal =>
      if s.refillRunning then { s with refillRunning := false } else s

/-- Run a sequence of atomic events from a state. -/
def run (s : SysState) : List Event → SysState
  | [] => s
  | e :: es => run (step s e) es

/-- System state right after `NewTokenBucket`: full bucket, refill
goroutine started. -/
def initState (rate : Int) (capacity : Int) (interval : Int) : SysState :=
  { bucket := NewTokenBucket rate capacity interval, refillRunning := true }

/-- The `Stop` method of `main.go`: a synchronous send on the unbuffered
channel `tb.stop`.  The `refill` goroutine is the only receiver on that
channel and it returns immediately after its (single) receive, so the
send completes exactly when the goroutine is still running; with no
receiver left the send blocks forever, modelled as `none`. -/
def StopOp (s : SysState) : Option SysState :=
  if s.refillRunning then some (step s Event.stopSignal) else none

/-- Run `n` consecutive `Allow` calls, collecting the decisions in
order. -/
def allowRun (tb : TokenBucket) : Nat → TokenBucket × List Bool
  | 0 => (tb, [])
  | n + 1 =>
      let p := Allow tb
      let q := allowRun p.1 n
      (q.1, p.2 :: q.2)

/-- Iterate the tick branch of `refill` a number of times (a bucket left
idle: ticks with no interleaved `Allow` calls). -/
def ticks : Nat → TokenBucket → TokenBucket
  | 0, tb => tb
  | n + 1, tb => ticks n (refillTick tb)

example : (allowRun (NewTokenBucket 1 3 1) 4).2 = [true, true, true, false] := by decide

example : (refillTick { capacity := 10, tokens := 0, rate := 3, interval := 1 }).tokens = 3 := by
  decide

example : (refillTick { capacity := 10, tokens := 9, rate := 3, interval := 1 }).tokens = 10 := by
  decide

example :
    (refillTick { capacity := 2 ^ 62, tokens := 2 ^ 62, rate := 2 ^ 62, interval := 1 }).tokens
      = -(2 ^ 63) := by decide

/-! ## Basic lemmas about the operations -/

theorem wrap64_eq_self {x : Int} (h1 : int64Min ≤ x) (h2 : x ≤ int64Max) : wrap64 x = x := by
  unfold wrap64 int64Min int64Max at *
  have h3 : (0 : Int) ≤ x + 2 ^ 63 := by omega
  have h4 : x + 2 ^ 63 < 2 ^ 64 := by omega
  rw [Int.emod_eq_of_lt h3 h4]
  omega

theorem int64Min_neg : int64Min < 0 := by decide

theorem Allow_fst_capacity (tb : TokenBucket) : (Allow tb).1.capacity = tb.capacity := by
  unfold Allow; split <;> rfl

theorem Allow_fst_rate (tb : TokenBucket) : (Allow tb).1.rate = tb.rate := by
  unfold Allow; split <;> rfl

theorem Allow_fst_interval (tb : TokenBucket) : (Allow tb).1.interval = tb.interval := by
  unfold Allow; split <;> rfl

theorem Allow_pos (tb : TokenBucket) (h : 0 < tb.tokens) :
    Allow tb = ({ tb with tokens := tb.tokens - 1 }, true) := by
  unfold Allow; rw [if_pos h]

theorem Allow_nonpos (tb : TokenBucket) (h : tb.tokens ≤ 0) : Allow tb = (tb, false) := by
  unfold Allow; rw [if_neg (by omega)]

theorem Allow_tokens_le (tb : TokenBucket) : (Allow tb).1.tokens ≤ tb.tokens := by
  unfold Allow; split
  · show tb.tokens - 1 ≤ tb.tokens; omega
  · exact le_rfl

theorem refillTick_capacity (tb : TokenBucket) : (refillTick tb).capacity = tb.capacity := by
  unfold refillTick; split <;> rfl

theorem refillTick_rate (tb : TokenBucket) : (refillTick tb).rate = tb.rate := by
  unfold refillTick; split <;> rfl

theorem refillTick_interval (tb : TokenBucket) : (refillTick tb).interval = tb.interval := by
  unfold refillTick; split <;> rfl

theorem refillTick_tokens (tb : TokenBucket) :
    (refillTick tb).tokens =
      if wrap64 (tb.tokens + tb.rate) > tb.capacity then tb.capacity
      else wrap64 (tb.tokens + tb.rate) := by
  unfold refillTick; split <;> simp_all

theorem refillTick_le_capacity (tb : TokenBucket) : (refillTick tb).tokens ≤ tb.capacity := by
  rw [refillTick_tokens]; split <;> omega

theorem refillTick_min (tb : TokenBucket) (h1 : int64Min ≤ tb.tokens + tb.rate)
    (h2 : tb.tokens + tb.rate ≤ int64Max) :
    (refillTick tb).tokens = min (tb.tokens + tb.rate) tb.capacity := by
  rw [refillTick_tokens, wrap64_eq_self h1 h2]
  split <;> omega

theorem step_capacity (s : SysState) (e : Event) :
    (step s e).bucket.capacity = s.bucket.capacity := by
  cases e with
  | allow => exact Allow_fst_capacity s.bucket
  | tick =>
      simp only [step]
      split
      · exact refillTick_capacity s.bucket
      · rfl
  | stopSignal =>
      simp only [step]
      split <;> rfl

theorem step_rate (s : SysState) (e : Event) : (step s e).bucket.rate = s.bucket.rate := by
  cases e with
  | allow => exact Allow_fst_rate s.bucket
  | tick =>
      simp only [step]
      split
      · exact refillTick_rate s.bucket
      · rfl
  | stopSignal =>
      simp only [step]
      split <;> rfl

theorem step_stopSignal_bucket (s : SysState) : (step s Event.stopSignal).bucket = s.bucket := by
  simp only [step]
  split <;> rfl

/-! ## Consecutive Allow calls -/

theorem allowRun_nonpos (k : Nat) (tb : TokenBucket) (h : tb.tokens ≤ 0) :
    allowRun tb k = (tb, List.replicate k false) := by
  induction k with
  | zero => rfl
  | succ n ih =>
      show (let p := Allow tb; let q := allowRun p.1 n; (q.1, p.2 :: q.2))
        = (tb, List.replicate (n + 1) false)
      rw [Allow_nonpos tb h]
      simp only [ih, List.replicate_succ]

theorem allowRun_drain (m : Nat) :
    ∀ (k : Nat) (tb : TokenBucket), tb.tokens = (m : Int) →
      (allowRun tb (m + k)).2 = List.replicate m true ++ List.replicate k false := by
  induction m with
  | zero =>
      intro k tb h
      rw [Nat.zero_add, allowRun_nonpos k tb (by omega)]
      simp
  | succ n ih =>
      intro k tb h
      have hpos : 0 < tb.tokens := by omega
      have hstep : (n + 1) + k = (n + k) + 1 := by omega
      rw [hstep]
      show (let p := Allow tb; let q := allowRun p.1 (n + k); (q.1, p.2 :: q.2)).2
        = List.replicate (n + 1) true ++ List.replicate k false
      rw [Allow_pos tb hpos]
      have ht : ({ tb with tokens := tb.tokens - 1 } : TokenBucket).tokens = (n : Int) := by
        show tb.tokens - 1 = (n : Int); omega
      simp only [ih k _ ht, List.replicate_succ, List.cons_append]

/-! ## Invariant preservation along runs -/

theorem step_inv {c r : Int} (hr : 0 < r) (hnof : c + r ≤ int64Max) (s : SysState) (e : Event)
    (hc : s.bucket.capacity = c) (hrate : s.bucket.rate = r)
    (h0 : 0 ≤ s.bucket.tokens) (h1 : s.bucket.tokens ≤ c) :
    0 ≤ (step s e).bucket.tokens ∧ (step s e).bucket.tokens ≤ c := by
  cases e with
  | allow =>
      show 0 ≤ (Allow s.bucket).1.tokens ∧ (Allow s.bucket).1.tokens ≤ c
      unfold Allow
      split
      · constructor
        · show 0 ≤ s.bucket.tokens - 1; omega
        · show s.bucket.tokens - 1 ≤ c; omega
      · exact ⟨h0, h1⟩
  | tick =>
      simp only [step]
      split
      · show 0 ≤ (refillTick s.bucket).tokens ∧ (refillTick s.bucket).tokens ≤ c
        have hmin : int64Min ≤ s.bucket.tokens + s.bucket.rate := by
          have := int64Min_neg; omega
        have hmax : s.bucket.tokens + s.bucket.rate ≤ int64Max := by omega
        rw [refillTick_min s.bucket hmin hmax]
        constructor
        · rw [le_min_iff]; omega
        · rw [hc]; exact min_le_right _ _
      · exact ⟨h0, h1⟩
  | stopSignal =>
      rw [step_stopSignal_bucket]
      exact ⟨h0, h1⟩

theorem run_inv {c r : Int} (hr : 0 < r) (hnof : c + r ≤ int64Max) (es : List Event) :
    ∀ s : SysState, s.bucket.capacity = c → s.bucket.rate = r →
      0 ≤ s.bucket.tokens → s.bucket.tokens ≤ c →
      0 ≤ (run s es).bucket.tokens ∧ (run s es).bucket.tokens ≤ c := by
  induction es with
  | nil => intro s _ _ h0 h1; exact ⟨h0, h1⟩
  | cons e es ih =>
      intro s hc hrate h0 h1
      have hb := step_inv hr hnof s e hc hrate h0 h1
      exact ih (step s e) (by rw [step_capacity, hc]) (by rw [step_rate, hrate]) hb.1 hb.2

theorem run_capacity (es : List Event) : ∀ s : SysState,
    (run s es).bucket.capacity = s.bucket.capacity := by
  induction es with
  | nil => intro s; rfl
  | cons e es ih => intro s; rw [show run s (e :: es) = run (step s e) es from rfl, ih, step_capacity]

/-! ## Idle replenishment (consecutive ticks) -/

theorem ticks_capacity (n : Nat) : ∀ tb : TokenBucket, (ticks n tb).capacity = tb.capacity := by
  induction n with
  | zero => intro tb; rfl
  | succ m ih =>
      intro tb
      show (ticks m (refillTick tb)).capacity = tb.capacity
      rw [ih, refillTick_capacity]

theorem ticks_formula (n : Nat) :
    ∀ tb : TokenBucket, 0 < tb.rate → tb.capacity + tb.rate ≤ int64Max →
      0 ≤ tb.tokens → tb.tokens ≤ tb.capacity →
      (ticks n tb).tokens = min (tb.tokens + n * tb.rate) tb.capacity := by
  induction n with
  | zero =>
      intro tb hr hnof h0 h1
      show tb.tokens = min (tb.tokens + (0 : Nat) * tb.rate) tb.capacity
      push_cast
      omega
  | succ m ih =>
      intro tb hr hnof h0 h1
      have hmin : int64Min ≤ tb.tokens + tb.rate := by have := int64Min_neg; omega
      have hmax : tb.tokens + tb.rate ≤ int64Max := by omega
      have htok : (refillTick tb).tokens = min (tb.tokens + tb.rate) tb.capacity :=
        refillTick_min tb hmin hmax
      have hc := refillTick_capacity tb
      have hrr := refillTick_rate tb
      have h0' : 0 ≤ (refillTick tb).tokens := by rw [htok, le_min_iff]; omega
      have h1' : (refillTick tb).tokens ≤ (refillTick tb).capacity := by
        rw [htok, hc]; exact min_le_right _ _
      show (ticks m (refillTick tb)).tokens = min (tb.tokens + ((m : Int) + 1) * tb.rate) tb.capacity
      rw [ih (refillTick tb) (by rw [hrr]; exact hr)
        (by rw [hc, hrr]; exact hnof) h0' h1', htok, hc, hrr]
      have hq : 0 ≤ (m : Int) * tb.rate := mul_nonneg (by positivity) (le_of_lt hr)
      rw [add_mul, one_mul]
      generalize (m : Int) * tb.rate = q at hq ⊢
      omega

/-! ## Runs after the refill goroutine has exited -/

theorem run_stopped (es : List Event) :
    ∀ s : SysState, s.refillRunning = false →
      (run s es).refillRunning = false ∧ (run s es).bucket.tokens ≤ s.bucket.tokens := by
  induction es with
  | nil => intro s h; exact ⟨h, le_rfl⟩
  | cons e es ih =>
      intro s h
      have hstep : (step s e).refillRunning = false ∧ (step s e).bucket.tokens ≤ s.bucket.tokens := by
        cases e with
        | allow => exact ⟨h, Allow_tokens_le s.bucket⟩
        | tick =>
            have hid : step s Event.tick = s := by simp [step, h]
            rw [hid]
            exact ⟨h, le_rfl⟩
        | stopSignal =>
            have hid : step s Event.stopSignal = s := by simp [step, h]
            rw [hid]
            exact ⟨h, le_rfl⟩
      have := ih (step s e) hstep.1
      exact ⟨this.1, le_trans this.2 hstep.2⟩

/-! ## Degenerate buckets (capacity at most zero) -/

theorem step_nonpos (s : SysState) (e : Event) (hc : s.bucket.capacity ≤ 0)
    (h : s.bucket.tokens ≤ 0) : (step s e).bucket.tokens ≤ 0 := by
  cases e with
  | allow =>
      show (Allow s.bucket).1.tokens ≤ 0
      rw [Allow_nonpos s.bucket h]
      exact h
  | tick =>
      simp only [step]
      split
      · show (refillTick s.bucket).tokens ≤ 0
        exact le_trans (refillTick_le_capacity s.bucket) hc
      · exact h
  | stopSignal =>
      rw [step_stopSignal_bucket]
      exact h

theorem run_nonpos (es : List Event) : ∀ s : SysState,
    s.bucket.capacity ≤ 0 → s.bucket.tokens ≤ 0 → (run s es).bucket.tokens ≤ 0 := by
  induction es with
  | nil => intro s _ h; exact h
  | cons e es ih =>
      intro s hc h
      exact ih (step s e) (by rw [step_capacity]; exact hc) (step_nonpos s e hc h)

/-! ## Claim theorems -/

/-- Helper: a rejecting `Allow` call leaves the whole bucket unchanged. -/
theorem Allow_false_frame (tb : TokenBucket) : (Allow tb).2 = false → (Allow tb).1 = tb := by
  unfold Allow
  split
  · intro h; simp at h
  · intro _; rfl

/-- Claim C1 (amended): for every bucket constructed with `capacity > 0` and
`rate > 0` whose refill addition cannot overflow an `int64`
(`capacity + rate ≤ 2^63 - 1`), every sequence of `Allow` calls,
replenishment ticks and stop events applied after construction keeps
`0 ≤ tokens ≤ capacity` at every quiescent point, starting from
`tokens = capacity`. -/
theorem c1_invariant (r c i : Int) (hc : 0 < c) (hr : 0 < r) (hnof : c + r ≤ int64Max)
    (es : List Event) :
    0 ≤ (run (initState r c i) es).bucket.tokens ∧
      (run (initState r c i) es).bucket.tokens ≤ (run (initState r c i) es).bucket.capacity := by
  have hcap : (run (initState r c i) es).bucket.capacity = c := run_capacity es _
  rw [hcap]
  exact run_inv hr hnof es (initState r c i) rfl rfl (le_of_lt hc) le_rfl

/-- Witness for C1 at `rate = 1`, `capacity = 10`, three events. -/
theorem c1_invariant_witness :
    0 ≤ (run (initState 1 10 2) [Event.allow, Event.tick, Event.allow]).bucket.tokens ∧
      (run (initState 1 10 2) [Event.allow, Event.tick, Event.allow]).bucket.tokens
        ≤ (run (initState 1 10 2) [Event.allow, Event.tick, Event.allow]).bucket.capacity :=
  c1_invariant 1 10 2 (by decide) (by decide) (by decide) [Event.allow, Event.tick, Event.allow]

/-- Counterexample to C1 as stated: with `capacity = rate = 2^62` (both
positive `int64` values) the very first tick overflows `tokens + rate`
and Go's two's-complement wrap drives `tokens` to `-2^63 < 0`. -/
theorem c1_cex :
    (0 : Int) < 2 ^ 62 ∧
      (run (initState (2 ^ 62) (2 ^ 62) 1) [Event.tick]).bucket.tokens < 0 := by decide

/-- Claim C2: a single `Allow` call returns `true` and decrements `tokens`
by exactly one when `tokens > 0`, and returns `false` with the whole
bucket unchanged when `tokens ≤ 0`; it is a total function into a single
boolean. -/
theorem c2_allow (tb : TokenBucket) :
    (0 < tb.tokens → Allow tb = ({ tb with tokens := tb.tokens - 1 }, true)) ∧
      (tb.tokens ≤ 0 → Allow tb = (tb, false)) :=
  ⟨Allow_pos tb, Allow_nonpos tb⟩

/-- Witness for C2 at a bucket with 3 tokens and at an exhausted bucket. -/
theorem c2_allow_witness :
    Allow { capacity := 10, tokens := 3, rate := 1, interval := 2 }
        = ({ capacity := 10, tokens := 2, rate := 1, interval := 2 }, true) ∧
      Allow { capacity := 10, tokens := 0, rate := 1, interval := 2 }
        = ({ capacity := 10, tokens := 0, rate := 1, interval := 2 }, false) :=
  ⟨(c2_allow { capacity := 10, tokens := 3, rate := 1, interval := 2 }).1 (by decide),
    (c2_allow { capacity := 10, tokens := 0, rate := 1, interval := 2 }).2 (by decide)⟩

/-- Claim C3 (amended): when the refill addition does not overflow an
`int64`, one tick sets `tokens` to `min (tokens + rate) capacity`;
unconditionally, a tick never leaves `tokens` above `capacity`, `Allow`
never increases `tokens`, servicing the stop signal leaves the bucket's
fields unchanged, and construction sets `tokens` to `capacity`. -/
theorem c3_tick (tb : TokenBucket) (h1 : int64Min ≤ tb.tokens + tb.rate)
    (h2 : tb.tokens + tb.rate ≤ int64Max) :
    (refillTick tb).tokens = min (tb.tokens + tb.rate) tb.capacity ∧
      (∀ tb' : TokenBucket, (refillTick tb').tokens ≤ tb'.capacity) ∧
      (∀ tb' : TokenBucket, (Allow tb').1.tokens ≤ tb'.tokens) ∧
      (∀ s : SysState, (step s Event.stopSignal).bucket = s.bucket) ∧
      (∀ r c i : Int, (NewTokenBucket r c i).tokens = c) :=
  ⟨refillTick_min tb h1 h2, refillTick_le_capacity, Allow_tokens_le,
    step_stopSignal_bucket, fun _ _ _ => rfl⟩

/-- Witness for C3 at `tokens = 4`, `rate = 3`, `capacity = 10`. -/
theorem c3_tick_witness :
    (refillTick { capacity := 10, tokens := 4, rate := 3, interval := 2 }).tokens
      = min ((4 : Int) + 3) 10 :=
  (c3_tick { capacity := 10, tokens := 4, rate := 3, interval := 2 }
    (by decide) (by decide)).1

/-- Counterexample to C3 as stated: at `tokens = rate = capacity = 2^62`
the Go addition `tokens += rate` overflows, so the tick does not set
`tokens` to `min (tokens + rate) capacity`. -/
theorem c3_cex :
    ¬ (refillTick
          { capacity := 2 ^ 62, tokens := 2 ^ 62, rate := 2 ^ 62, interval := 1 }).tokens
        = min ((2 : Int) ^ 62 + 2 ^ 62) (2 ^ 62) := by decide

/-- Claim C4: on a freshly constructed bucket with `capacity = C > 0` and
no tick interleaved, the first `C` consecutive `Allow` calls all return
`true` and the `(C+1)`-th returns `false`. -/
theorem c4_burst (r c i : Int) (hc : 0 < c) :
    (allowRun (NewTokenBucket r c i) (c.toNat + 1)).2
      = List.replicate c.toNat true ++ [false] := by
  have htok : (NewTokenBucket r c i).tokens = (c.toNat : Int) := by
    show c = (c.toNat : Int)
    rw [Int.toNat_of_nonneg (le_of_lt hc)]
  have h := allowRun_drain c.toNat 1 (NewTokenBucket r c i) htok
  simpa using h

/-- Witness for C4 at `capacity = 3`. -/
theorem c4_burst_witness :
    (allowRun (NewTokenBucket 5 3 1) ((3 : Int).toNat + 1)).2
      = List.replicate (3 : Int).toNat true ++ [false] :=
  c4_burst 5 3 1 (by decide)

/-- Claim C5: once a bucket with positive capacity and rate is exhausted
(`tokens = 0`), after exactly one tick exactly `min rate capacity`
subsequent `Allow` calls return `true` before one returns `false`. -/
theorem c5_refill (tb : TokenBucket) (hc : 0 < tb.capacity) (hr : 0 < tb.rate)
    (hmax : tb.rate ≤ int64Max) (h0 : tb.tokens = 0) :
    (allowRun (refillTick tb) ((min tb.rate tb.capacity).toNat + 1)).2
      = List.replicate (min tb.rate tb.capacity).toNat true ++ [false] := by
  have hmin : int64Min ≤ tb.tokens + tb.rate := by have := int64Min_neg; omega
  have hmax' : tb.tokens + tb.rate ≤ int64Max := by omega
  have htok : (refillTick tb).tokens = min tb.rate tb.capacity := by
    rw [refillTick_min tb hmin hmax', h0, zero_add]
  have hpos : 0 < min tb.rate tb.capacity := lt_min hr hc
  have htokn : (refillTick tb).tokens = ((min tb.rate tb.capacity).toNat : Int) := by
    rw [htok, Int.toNat_of_nonneg (le_of_lt hpos)]
  have h := allowRun_drain (min tb.rate tb.capacity).toNat 1 (refillTick tb) htokn
  simpa using h

/-- Witness for C5 at `capacity = 10`, `rate = 3`, exhausted bucket. -/
theorem c5_refill_witness :
    (allowRun (refillTick { capacity := 10, tokens := 0, rate := 3, interval := 2 })
        ((min (3 : Int) 10).toNat + 1)).2
      = List.replicate (min (3 : Int) 10).toNat true ++ [false] :=
  c5_refill { capacity := 10, tokens := 0, rate := 3, interval := 2 }
    (by decide) (by decide) (by decide) (by decide)

/-- Claim C6 (amended): for a bucket with `capacity > 0`, `rate > 0`,
`0 ≤ tokens ≤ capacity`, whose refill addition cannot overflow an
`int64` (`capacity + rate ≤ 2^63 - 1`), after `N > capacity / rate`
consecutive idle ticks `tokens` equals `capacity`, and for every number
of idle ticks `tokens` never exceeds `capacity`. -/
theorem c6_cap (tb : TokenBucket) (_hc : 0 < tb.capacity) (hr : 0 < tb.rate)
    (hnof : tb.capacity + tb.rate ≤ int64Max)
    (h0 : 0 ≤ tb.tokens) (h1 : tb.tokens ≤ tb.capacity)
    (N : Nat) (hN : tb.capacity / tb.rate < (N : Int)) :
    (ticks N tb).tokens = tb.capacity ∧ ∀ M : Nat, (ticks M tb).tokens ≤ tb.capacity := by
  constructor
  · rw [ticks_formula N tb hr hnof h0 h1]
    have hlt : tb.capacity < (N : Int) * tb.rate := by
      have h2 : tb.capacity < (tb.capacity / tb.rate + 1) * tb.rate :=
        Int.lt_ediv_add_one_mul_self tb.capacity hr
      have h3 : (tb.capacity / tb.rate + 1) * tb.rate ≤ (N : Int) * tb.rate :=
        mul_le_mul_of_nonneg_right (by omega) (le_of_lt hr)
      omega
    generalize (N : Int) * tb.rate = q at hlt ⊢
    omega
  · intro M
    rw [ticks_formula M tb hr hnof h0 h1]
    exact min_le_right _ _

/-- Witness for C6 at `capacity = 10`, `rate = 3`, `tokens = 4`,
`N = 4 > 10 / 3`, and `M = 7` idle ticks for the cap part. -/
theorem c6_cap_witness :
    (ticks 4 { capacity := 10, tokens := 4, rate := 3, interval := 2 }).tokens = 10 ∧
      (ticks 7 { capacity := 10, tokens := 4, rate := 3, interval := 2 }).tokens ≤ 10 :=
  ⟨(c6_cap { capacity := 10, tokens := 4, rate := 3, interval := 2 }
      (by decide) (by decide) (by decide) (by decide) (by decide) 4 (by decide)).1,
    (c6_cap { capacity := 10, tokens := 4, rate := 3, interval := 2 }
      (by decide) (by decide) (by decide) (by decide) (by decide) 4 (by decide)).2 7⟩

/-- Counterexample to C6 as stated: with
`capacity = rate = tokens = 2^63 - 1` (all valid positive `int64`
values, `tokens ≤ capacity`) and `N = 2 > capacity / rate = 1`, the Go
addition overflows on each tick and after two idle ticks `tokens` is
`2^63 - 3`, not `capacity`. -/
theorem c6_cex :
    ((2 : Int) ^ 63 - 1) / (2 ^ 63 - 1) < ((2 : Nat) : Int) ∧
      ¬ (ticks 2
            { capacity := 2 ^ 63 - 1, tokens := 2 ^ 63 - 1, rate := 2 ^ 63 - 1,
              interval := 1 }).tokens
          = 2 ^ 63 - 1 := by decide

/-- Claim C7: once the refill goroutine has serviced the stop signal, in
every subsequent run the goroutine never restarts, `tokens` is
non-increasing, and `Allow` remains callable with its usual behavior
(decrement and admit on `tokens > 0`, reject with no change
otherwise). -/
theorem c7_shutdown (s : SysState) (h : s.refillRunning = false) (es : List Event) :
    (run s es).bucket.tokens ≤ s.bucket.tokens ∧ (run s es).refillRunning = false ∧
      (∀ tb : TokenBucket, 0 < tb.tokens → Allow tb = ({ tb with tokens := tb.tokens - 1 }, true)) ∧
      (∀ tb : TokenBucket, tb.tokens ≤ 0 → Allow tb = (tb, false)) :=
  ⟨(run_stopped es s h).2, (run_stopped es s h).1, Allow_pos, Allow_nonpos⟩

/-- Witness for C7: a stopped system with 5 tokens, subjected to a tick
(which has no effect) and an `Allow` call. -/
theorem c7_shutdown_witness :
    (run
        { bucket := { capacity := 10, tokens := 5, rate := 1, interval := 2 },
          refillRunning := false }
        [Event.tick, Event.allow]).bucket.tokens ≤ 5 ∧
      (run
        { bucket := { capacity := 10, tokens := 5, rate := 1, interval := 2 },
          refillRunning := false }
        [Event.tick, Event.allow]).refillRunning = false :=
  ⟨(c7_shutdown _ rfl [Event.tick, Event.allow]).1,
    (c7_shutdown _ rfl [Event.tick, Event.allow]).2.1⟩

/-- Claim C8: `capacity`, `rate` and `interval` are fixed at
construction: neither `Allow` nor a replenishment tick modifies them,
servicing the stop signal modifies no bucket field at all, and `Allow`
mutates the bucket only when it admits (returns `true`). -/
theorem c8_frame (tb : TokenBucket) :
    (Allow tb).1.capacity = tb.capacity ∧ (Allow tb).1.rate = tb.rate ∧
      (Allow tb).1.interval = tb.interval ∧
      (refillTick tb).capacity = tb.capacity ∧ (refillTick tb).rate = tb.rate ∧
      (refillTick tb).interval = tb.interval ∧
      (∀ s : SysState, (step s Event.stopSignal).bucket = s.bucket) ∧
      ((Allow tb).2 = false → (Allow tb).1 = tb) :=
  ⟨Allow_fst_capacity tb, Allow_fst_rate tb, Allow_fst_interval tb,
    refillTick_capacity tb, refillTick_rate tb, refillTick_interval tb,
    step_stopSignal_bucket, Allow_false_frame tb⟩

/-- Witness for C8: a rejecting `Allow` call on an exhausted bucket
leaves the bucket exactly as it was. -/
theorem c8_frame_witness :
    (Allow { capacity := 7, tokens := 0, rate := 2, interval := 3 }).1
      = { capacity := 7, tokens := 0, rate := 2, interval := 3 } :=
  (c8_frame { capacity := 7, tokens := 0, rate := 2, interval := 3 }).2.2.2.2.2.2.2 (by decide)

/-- Claim C9: `Stop` is effectively-once: if a `Stop` call completes
(the refill goroutine was still running and received the signal), a
second `Stop` call finds no receiver on the unbuffered channel and
blocks forever (`none`). -/
theorem c9_double_stop (s s' : SysState) (h : StopOp s = some s') : StopOp s' = none := by
  by_cases hr : s.refillRunning = true
  · have h2 : s' = step s Event.stopSignal := by
      unfold StopOp at h
      rw [if_pos hr] at h
      exact (Option.some.inj h).symm
    have hfalse : s'.refillRunning = false := by
      rw [h2]; simp [step, hr]
    unfold StopOp
    rw [hfalse]
    rfl
  · unfold StopOp at h
    rw [if_neg hr] at h
    exact Option.noConfusion h

/-- Witness for C9: stopping a freshly constructed system succeeds, and
a second stop on the resulting system blocks. -/
theorem c9_double_stop_witness :
    StopOp { bucket := NewTokenBucket 1 10 2, refillRunning := false } = none :=
  c9_double_stop { bucket := NewTokenBucket 1 10 2, refillRunning := true }
    { bucket := NewTokenBucket 1 10 2, refillRunning := false } (by decide)

/-- Claim C10: the constructor validates nothing: for `capacity ≤ 0` the
bucket starts with `tokens = capacity ≤ 0`, and after any sequence of
events (any number of replenishment ticks included) `tokens` stays at
most `0`, so every `Allow` call rejects forever. -/
theorem c10_degenerate (r c i : Int) (hc : c ≤ 0) (es : List Event) :
    (NewTokenBucket r c i).tokens = c ∧
      (run (initState r c i) es).bucket.tokens ≤ 0 ∧
      (Allow (run (initState r c i) es).bucket).2 = false := by
  have hrun : (run (initState r c i) es).bucket.tokens ≤ 0 :=
    run_nonpos es (initState r c i) hc hc
  refine ⟨rfl, hrun, ?_⟩
  rw [Allow_nonpos _ hrun]

/-- Witness for C10 at `capacity = -5` with a tick-allow-tick run. -/
theorem c10_degenerate_witness :
    (NewTokenBucket 1 (-5) 1).tokens = -5 ∧
      (run (initState 1 (-5) 1) [Event.tick, Event.allow, Event.tick]).bucket.tokens ≤ 0 ∧
      (Allow (run (initState 1 (-5) 1) [Event.tick, Event.allow, Event.tick]).bucket).2
        = false :=
  c10_degenerate 1 (-5) 1 (by decide) [Event.tick, Event.allow, Event.tick]
